import Mathlib

/-!
Verification development for the `dyntamic` schema-to-model compiler
(`src/dyntamic/factory.py`).

The Python source is shallowly embedded: JSON values are an inductive
`Json`, Python dicts are association lists in insertion order, Python
runtime failures (TypeError, AttributeError, RecursionError, ...) are
constructors of `PyErr`, and every fallible source operation returns
`Except PyErr _`.  Recursion through `_make_nested` is bounded by an
explicit fuel argument; exhausting fuel models Python's RecursionError.
-/

set_option maxHeartbeats 1000000

namespace Dyntamic

/-- JSON values as read from a parsed schema.  Python dicts keep insertion
order, so objects are association lists. -/
inductive Json where
  | str : String → Json
  | num : Int → Json
  | boolVal : Bool → Json
  | null : Json
  | arr : List Json → Json
  | obj : List (String × Json) → Json
deriving Repr

mutual
/-- Structural equality on JSON values (Python `==` on parsed JSON). -/
def Json.beq : Json → Json → Bool
  | .str a, .str b => a == b
  | .num a, .num b => a == b
  | .boolVal a, .boolVal b => a == b
  | .null, .null => true
  | .arr a, .arr b => Json.beqList a b
  | .obj a, .obj b => Json.beqObj a b
  | _, _ => false

def Json.beqList : List Json → List Json → Bool
  | [], [] => true
  | a :: as, b :: bs => Json.beq a b && Json.beqList as bs
  | _, _ => false

def Json.beqObj : List (String × Json) → List (String × Json) → Bool
  | [], [] => true
  | (ka, va) :: as, (kb, vb) :: bs => ka == kb && Json.beq va vb && Json.beqObj as bs
  | _, _ => false
end

instance : BEq Json := ⟨Json.beq⟩

/-- Python runtime errors the compiler can raise, plus the error class the
spec's taxonomy names.  `unresolvedReferenceError` is modelled from the
spec (§7): the source defines no such exception class, so the embedding
never produces this constructor; it exists to state claims that mention
it. -/
inductive PyErr where
  /-- Python `RecursionError`: models fuel exhaustion of the nested-model
  recursion. -/
  | recursionError : PyErr
  /-- Python `TypeError: argument of type '...' is not iterable` from
  `x in y` with `y` a bool / None / number. -/
  | typeErrorNotIterable : PyErr
  /-- Python `AttributeError`: `.get` on a non-dict or `.strip` on a
  non-string. -/
  | attributeError : PyErr
  /-- Python `TypeError: unhashable type` from a dict lookup keyed by a
  dict or list. -/
  | typeErrorUnhashable : PyErr
  /-- Python `TypeError: unsupported operand type(s) for |` from merging
  the definitions dict with `None` (or a non-dict definition value). -/
  | typeErrorMerge : PyErr
  /-- Python `TypeError` from iterating / subscripting a non-dict
  `properties` value. -/
  | typeErrorBadProperties : PyErr
  /-- `pydantic.create_model` called with a non-string model name. -/
  | createModelError : PyErr
  /-- Python `NameError: name 'Optional' is not defined`: `_make_field`'s
  optional branch evaluates `Optional[field_type]`, but the module imports
  only `Annotated` and `Union` from `typing`, so any field absent from
  `required` raises before anything is stored. -/
  | nameErrorOptional : PyErr
  /-- Modelled from the spec: the `UnresolvedReferenceError` class named by
  the spec's error taxonomy.  No such class exists in the source. -/
  | unresolvedReferenceError : PyErr
deriving DecidableEq, Repr

/-- The runtime types stored in `DyntamicFactory.TYPES`. -/
inductive PyType where
  | str | list | bool | int | float
deriving DecidableEq, Repr

mutual
/-- The Python value passed to `_make_field` as `field_type`: one of the
`TYPES` entries, `None` (an unknown type name silently looked up as
`None`), or a nested model created by `create_model`. -/
inductive FieldType where
  | pyNone : FieldType
  | prim : PyType → FieldType
  | model : String → List (String × FieldDef) → FieldType

/-- One entry of `model_fields`: `(field_type, ...)` for required fields.
The `optional` form is the `(Optional[field_type], Field(default=None,
alias=alias))` tuple the source's else branch tries to build; the
compiler never actually produces it, because `Optional` is unbound in the
module and that branch raises `NameError` first. -/
inductive FieldDef where
  | required : FieldType → FieldDef
  | optional : FieldType → Option Json → FieldDef
end

/-- The result of `create_model(name, **model_fields)`. -/
structure Model where
  name : String
  fields : List (String × FieldDef)

/-- First-match association-list lookup: Python `dict.get` on a dict whose
keys are unique. -/
def lookupJ (kvs : List (String × Json)) (k : String) : Option Json :=
  match kvs with
  | [] => none
  | (k', v) :: rest => if k' = k then some v else lookupJ rest k

/-- Python dict item assignment `d[k] = v`: overwrite in place if the key
exists, else append. -/
def dictSet (kvs : List (String × FieldDef)) (k : String) (v : FieldDef) :
    List (String × FieldDef) :=
  match kvs with
  | [] => [(k, v)]
  | (k', v') :: rest =>
      if k' = k then (k, v) :: rest else (k', v') :: dictSet rest k v

/-- Python dict item assignment for JSON-valued dicts. -/
def dictSetJ (kvs : List (String × Json)) (k : String) (v : Json) :
    List (String × Json) :=
  match kvs with
  | [] => [(k, v)]
  | (k', v') :: rest =>
      if k' = k then (k, v) :: rest else (k', v') :: dictSetJ rest k v

/-- Python `left | right` on dicts: left's keys first (right's value
winning on shared keys), then right-only keys in right order. -/
def pyDictMerge (l r : List (String × Json)) : List (String × Json) :=
  (l.map fun kv =>
    match lookupJ r kv.1 with
    | some v => (kv.1, v)
    | none => kv) ++
  r.filter fun kv => (lookupJ l kv.1).isNone

/-- `needle in haystack` for a string haystack: substring containment. -/
def strContains (s pat : String) : Bool :=
  (s.toList.tails).any fun t => pat.toList.isPrefixOf t

/-- Python `needle in y` for a string needle: key membership for dicts,
element membership for lists, substring test for strings; `TypeError` for
bool / None / number. -/
def pyIn (needle : String) : Json → Except PyErr Bool
  | .obj kvs => .ok (kvs.any fun kv => kv.1 == needle)
  | .arr xs => .ok (xs.any fun x => x == Json.str needle)
  | .str s => .ok (strContains s needle)
  | _ => .error .typeErrorNotIterable

/-- Python `s.strip(chars)`: remove from both ends every character that
occurs anywhere in `chars` (a character-set strip, not a prefix strip). -/
def stripChars (s chars : String) : String :=
  let cs := chars.toList
  let noLead := s.toList.dropWhile fun c => cs.contains c
  let noTrail := (noLead.reverse.dropWhile fun c => cs.contains c).reverse
  String.mk noTrail

/-- `j.get(k)` where `j` must be a dict, else Python raises
`AttributeError`. -/
def objGet (j : Json) (k : String) : Except PyErr (Option Json) :=
  match j with
  | .obj kvs => .ok (lookupJ kvs k)
  | _ => .error .attributeError

/-- `dict.get(key)` with an arbitrary Python value as key: dicts and lists
are unhashable (`TypeError`); other non-string keys simply miss. -/
def pyDictGetJ (kvs : List (String × Json)) (key : Json) :
    Except PyErr (Option Json) :=
  match key with
  | .str s => .ok (lookupJ kvs s)
  | .obj _ => .error .typeErrorUnhashable
  | .arr _ => .error .typeErrorUnhashable
  | _ => .ok none

/-- `self.TYPES.get(x)` where `x` is `spec.get("type")`: the lookup table
of `DyntamicFactory.TYPES`; unhashable keys raise, any other non-matching
key yields `None`. -/
def typesGet : Option Json → Except PyErr (Option PyType)
  | some (.str "string") => .ok (some .str)
  | some (.str "array") => .ok (some .list)
  | some (.str "boolean") => .ok (some .bool)
  | some (.str "integer") => .ok (some .int)
  | some (.str "float") => .ok (some .float)
  | some (.str "number") => .ok (some .float)
  | some (.obj _) => .error .typeErrorUnhashable
  | some (.arr _) => .error .typeErrorUnhashable
  | _ => .ok none

/-- The `field_type` value handed to `_make_field` in `make`'s non-ref
branch: the `TYPES` lookup result, which may be `None`. -/
def ftOfFactory : Option PyType → FieldType
  | none => .pyNone
  | some p => .prim p

/-- `pydantic.create_model(name, **fields)`: the class name must be a
string, else `type()` raises. -/
def createModel (name : Option Json) (fields : List (String × FieldDef)) :
    Except PyErr Model :=
  match name with
  | some (.str s) => .ok ⟨s, fields⟩
  | _ => .error .createModelError

/-- `DyntamicFactory._make_field(field_type, field_name, alias)`: test
`field_name in self.required` (which raises when `required` is the stored
default `False`), then store `(field_type, ...)` for a required field.
The else branch evaluates `Optional[field_type]`, but the module imports
only `Annotated` and `Union` from `typing`, so a non-required field
raises `NameError` before anything is stored — no optional field is ever
compiled. -/
def makeField (required : Json) (ft : FieldType) (fieldName : String)
    (aliasV : Option Json) (mf : List (String × FieldDef)) :
    Except PyErr (List (String × FieldDef)) := do
  let isReq ← pyIn fieldName required
  if isReq then
    pure (dictSet mf fieldName (.required ft))
  else
    Except.error PyErr.nameErrorOptional

/-- `self.definitions.get(...)` requires `self.definitions` to be a dict,
else Python raises `AttributeError`. -/
def asObjDict (j : Json) : Except PyErr (List (String × Json)) :=
  match j with
  | .obj kvs => .ok kvs
  | _ => .error .attributeError

/-- `{"$defs": self.definitions} | self.definitions.get(model_name)`:
merging a dict with `None` (definition absent) or with a non-dict
definition value raises `TypeError`. -/
def defnToKvs : Option Json → Except PyErr (List (String × Json))
  | some (.obj kvs) => .ok kvs
  | _ => .error PyErr.typeErrorMerge

/-- `create_model(model_name, ...)` needs a string name. -/
def modelNameStr : Json → Except PyErr String
  | .str s => .ok s
  | _ => .error PyErr.createModelError

/-- `model_name.strip(...)` on the value found under `"$ref"`: Python
raises `AttributeError` when that value is not a string. -/
def refName : Option Json → Except PyErr String
  | some (.str s) => .ok s
  | _ => .error PyErr.attributeError

/-- `DyntamicFactory._make_nested(model_name, field)`: look the name up in
`self.definitions`, merge the definition over a fresh dict carrying the
definitions table, run the nested factory's `make()` (the recursive call,
abstracted as `recurse`, plus its own `create_model` on the nested title),
rebuild the model under `model_name`, and store it via `_make_field(model,
field, field)`.  `recurse` is the nested `level.make()` loop. -/
def makeNested (recurse : Json → Except PyErr (List (String × FieldDef)))
    (defsJ : Json) (required : Json) (modelName : Json) (field : String)
    (mf : List (String × FieldDef)) :
    Except PyErr (List (String × FieldDef)) := do
  let defKvs ← asObjDict defsJ
  let defnOpt ← pyDictGetJ defKvs modelName
  let defnKvs ← defnToKvs defnOpt
  let merged := pyDictMerge [("$defs", defsJ)] defnKvs
  let levelFields ← recurse (Json.obj merged)
  let _ ← createModel (lookupJ merged "title") levelFields
  let nm ← modelNameStr modelName
  makeField required (.model nm levelFields) field (some (.str field)) mf

/-- One iteration of the loop in `DyntamicFactory.make`: process property
`field` with spec `spec`.  `allProps` is `self.raw_fields` (needed for the
`self.raw_fields.get("title")` alias argument). -/
def processField (recurse : Json → Except PyErr (List (String × FieldDef)))
    (rt : String) (defsJ : Json) (required : Json)
    (allProps : List (String × Json)) (mf : List (String × FieldDef))
    (field : String) (spec : Json) :
    Except PyErr (List (String × FieldDef)) := do
  let hasRef ← pyIn "$ref" spec
  if hasRef then
    let mnOpt ← objGet spec "$ref"
    let mn ← refName mnOpt
    makeNested recurse defsJ required (.str (stripChars mn rt)) field mf
  else
    let tOpt ← objGet spec "type"
    let factory ← typesGet tOpt
    let mf' ←
      if factory = some PyType.list then do
        let itemsOpt ← objGet spec "items"
        let items := itemsOpt.getD .null
        let hit ← pyIn rt items
        if hit then do
          let v ← objGet items rt
          makeNested recurse defsJ required (v.getD .null) field mf
        else
          pure mf
      else
        pure mf
    makeField required (ftOfFactory factory) field (lookupJ allProps "title") mf'

/-- The `for field in self.raw_fields` loop of `DyntamicFactory.make`. -/
def makeLoop (recurse : Json → Except PyErr (List (String × FieldDef)))
    (rt : String) (defsJ : Json) (required : Json)
    (allProps : List (String × Json)) :
    List (String × Json) → List (String × FieldDef) →
    Except PyErr (List (String × FieldDef))
  | [], mf => .ok mf
  | (field, spec) :: rest, mf => do
      let mf' ← processField recurse rt defsJ required allProps mf field spec
      makeLoop recurse rt defsJ required allProps rest mf'

/-- Iterating a non-dict `properties` value: an empty string or empty
list iterates zero times (so `make` proceeds with no fields); any other
non-dict value raises a `TypeError` at the first subscript or membership
test inside the loop body. -/
def emptyIterFields : Json → Except PyErr (List (String × FieldDef))
  | .str "" => .ok []
  | .arr [] => .ok []
  | _ => .error .typeErrorBadProperties

/-- `DyntamicFactory(schema, ref_template=rt)` construction plus the loop
of `make()`, producing `model_fields`.  The constructor's `.get` calls
require the schema to be a dict; `required` defaults to `False`
(`Json.boolVal false`) and `$defs` defaults to `{}` exactly as in
`__init__`.  Iterating a `None`/non-dict `properties` raises (an empty
string or list iterates zero times).  Fuel bounds the `_make_nested`
recursion; running out models Python's `RecursionError`. -/
def dynMakeFields : Nat → String → Json →
    Except PyErr (List (String × FieldDef))
  | 0, _, _ => .error .recursionError
  | fuel + 1, rt, schema =>
      match schema with
      | .obj kvs =>
          let required := (lookupJ kvs "required").getD (.boolVal false)
          let defsJ := (lookupJ kvs "$defs").getD (.obj [])
          match lookupJ kvs "properties" with
          | some (.obj pkvs) =>
              makeLoop (dynMakeFields fuel rt) rt defsJ required pkvs pkvs []
          | some v => emptyIterFields v
          | none => .error .typeErrorBadProperties
      | _ => .error .attributeError

/-- `schema.get(k)` for a schema already known to be a dict (used for the
`title` read of `create_model`). -/
def jget (j : Json) (k : String) : Option Json :=
  match j with
  | .obj kvs => lookupJ kvs k
  | _ => none

/-- `DyntamicFactory(schema, ref_template=rt).make()`: run the field loop,
then `create_model(self.class_name, **self.model_fields)`. -/
def dynMake (fuel : Nat) (rt : String) (schema : Json) : Except PyErr Model := do
  let fields ← dynMakeFields fuel rt schema
  createModel (jget schema "title") fields

/-- Python `str.capitalize()`: first character upper-cased, all remaining
characters lower-cased. -/
def pyCapitalize (s : String) : String :=
  match s.toList with
  | [] => ""
  | c :: cs => String.mk (c.toUpper :: cs.map Char.toLower)

/-- `key.replace("_", " ")` as used by `process_value`: a single-character
pattern replaced by a single character is a character-wise map. -/
def underscoreToSpace (s : String) : String :=
  String.mk (s.toList.map fun c => if c = '_' then ' ' else c)

/-- Python `str.title()`: upper-case every letter that follows a
non-letter, lower-case every letter that follows a letter. -/
def pyTitle (s : String) : String :=
  let step := fun (acc : List Char × Bool) (c : Char) =>
    if c.isAlpha then
      (acc.1 ++ [if acc.2 then c.toLower else c.toUpper], true)
    else
      (acc.1 ++ [c], false)
  String.mk (s.toList.foldl step ([], false)).1

mutual
/-- `process_value(key, value)`: a dict value becomes a `$ref` property
plus a definition named `key.capitalize()` (and the nested walk's own
definitions); any other value becomes a property dict holding the
underscore-to-space title-cased key as `title` and the raw value as the
declared `type` name. -/
def process_value (key : String) (value : Json) :
    Json × Option (List (String × Json)) × List (String × Json) :=
  match value with
  | .obj kvs =>
      let nestedKey := pyCapitalize key
      let res := process_dictGo kvs [] [] []
      (Json.obj [("$ref", .str ("#/$defs/" ++ nestedKey))],
       some [(nestedKey, Json.obj
         [("properties", .obj res.1),
          ("required", .arr (res.2.1.map Json.str)),
          ("title", .str nestedKey),
          ("type", .str "object")])],
       res.2.2)
  | _ =>
      (Json.obj [("title", .str (pyTitle (underscoreToSpace key))),
                 ("type", value)],
       none, [])
termination_by structural value

def process_dictGo (pending : List (String × Json))
    (props : List (String × Json)) (req : List String)
    (defs : List (String × Json)) :
    List (String × Json) × List String × List (String × Json) :=
  match pending with
  | [] => (props, req, defs)
  | (key, value) :: rest =>
      let res := process_value key value
      let props' := dictSetJ props key res.1
      let req' := req ++ [key]
      let defs' :=
        match res.2.1 with
        | some dd => dd.foldl (fun d kv => dictSetJ d kv.1 kv.2) defs
        | none => defs
      let defs'' := res.2.2.foldl (fun d kv => dictSetJ d kv.1 kv.2) defs'
      process_dictGo rest props' req' defs''
termination_by structural pending
end

/-- `process_dict(data)`: walk the items in order, accumulating
`properties`, `required` and `defs` exactly as the source's loop does
(`defs.update` overwrites on name collisions). -/
def process_dict (data : List (String × Json)) :
    List (String × Json) × List String × List (String × Json) :=
  process_dictGo data [] [] []

/-- `create_json_schema_from_raw_json(raw_json, title)` after `json.loads`:
the source parses a JSON string first; string parsing is not embedded, so
this consumes the parsed top-level object. -/
def create_json_schema_from_parsed (data : List (String × Json))
    (title : String) : Json :=
  let res := process_dict data
  Json.obj
    [("$defs", .obj res.2.2),
     ("properties", .obj res.1),
     ("required", .arr (res.2.1.map Json.str)),
     ("title", .str title),
     ("type", .str "object")]

/-- The alias value stored with a compiled field: required fields are
stored as `(field_type, ...)` with no alias at all; optional fields store
the `alias=` argument of `pydantic.Field`. -/
def storedAlias : FieldDef → Option Json
  | .required _ => none
  | .optional _ a => a

/-- A property spec that `make` treats as a plain primitive: a dict with
no `"$ref"` key whose declared type name is one of the non-`array`
entries of `TYPES`. -/
def isPrimitiveSpec : Json → Bool
  | .obj kvs =>
      !(kvs.any fun kv => kv.1 == "$ref") &&
      (match lookupJ kvs "type" with
       | some (.str t) =>
           t == "string" || t == "boolean" || t == "integer" ||
           t == "float" || t == "number"
       | _ => false)
  | _ => false

/-- A single Python read of a schema attribute (`.get` / `[]` / `in`):
returns the schema object unchanged together with the value read.  This
is the store-level embedding of the fact that the factory only ever reads
its input. -/
def schemaRead (st : Json) (k : String) : Json × Option Json :=
  (st, jget st k)

/-- The `make` loop of the factory with the input schema threaded through
as an explicit mutable store: every schema operation the source performs
is a `schemaRead`, and the post-call store is returned alongside the
result. -/
def dynMakeFieldsSt (fuel : Nat) (rt : String) (schema : Json) :
    Json × Except PyErr (List (String × FieldDef)) :=
  match fuel with
  | 0 => (schema, .error .recursionError)
  | fuel + 1 =>
      match schema with
      | .obj _ =>
          let r1 := schemaRead schema "required"
          let required := r1.2.getD (.boolVal false)
          let r2 := schemaRead r1.1 "$defs"
          let defsJ := r2.2.getD (.obj [])
          let r3 := schemaRead r2.1 "properties"
          match r3.2 with
          | some (.obj pkvs) =>
              (r3.1,
               makeLoop (dynMakeFields fuel rt) rt defsJ required pkvs pkvs [])
          | some v => (r3.1, emptyIterFields v)
          | none => (r3.1, .error .typeErrorBadProperties)
      | _ => (schema, .error .attributeError)

/-- `DyntamicFactory(schema).make()` with the input schema threaded as an
explicit store (see `dynMakeFieldsSt`). -/
def dynMakeSt (fuel : Nat) (rt : String) (schema : Json) :
    Json × Except PyErr Model :=
  let r := dynMakeFieldsSt fuel rt schema
  match r.2 with
  | .error e => (r.1, .error e)
  | .ok flds =>
      let t := schemaRead r.1 "title"
      (t.1, createModel t.2 flds)

/-! ## Helper lemmas -/

@[simp] theorem exc_bind_ok {α β : Type} (a : α) (g : α → Except PyErr β) :
    (Except.ok a >>= g : Except PyErr β) = g a := rfl

@[simp] theorem exc_bind_error {α β : Type} (e : PyErr)
    (g : α → Except PyErr β) :
    ((Except.error e : Except PyErr α) >>= g) = Except.error e := rfl

@[simp] theorem exc_pure_eq_ok {α : Type} (a : α) :
    (pure a : Except PyErr α) = Except.ok a := rfl

theorem dictSet_eq_append (mf : List (String × FieldDef)) (k : String)
    (v : FieldDef) (h : ∀ p ∈ mf, p.1 ≠ k) :
    dictSet mf k v = mf ++ [(k, v)] := by
  induction mf with
  | nil => simp [dictSet]
  | cons hd tl ih =>
      obtain ⟨k', v'⟩ := hd
      have hne : k' ≠ k := h (k', v') (by simp)
      simp only [dictSet, if_neg hne, List.cons_append, List.cons.injEq,
        true_and]
      exact ih fun p hp => h p (by simp [hp])

theorem mem_dictSet (mf : List (String × FieldDef)) (k : String)
    (v : FieldDef) (p : String × FieldDef) (hp : p ∈ dictSet mf k v) :
    p ∈ mf ∨ p = (k, v) := by
  induction mf with
  | nil =>
      simp [dictSet] at hp
      simp [hp]
  | cons hd tl ih =>
      obtain ⟨k', v'⟩ := hd
      by_cases hk : k' = k
      · simp [dictSet, hk] at hp
        rcases hp with hp | hp
        · right; simp [hp]
        · left; simp [hp]
      · simp [dictSet, hk] at hp
        rcases hp with hp | hp
        · left; simp [hp]
        · rcases ih hp with h1 | h1
          · left; simp [h1]
          · right; exact h1

/-- `_make_field` succeeds only through its required branch: the optional
branch raises `NameError` (`Optional` is unbound in the module). -/
theorem makeField_ok_required (required : Json) (ft : FieldType) (f : String)
    (al : Option Json) (mf mf' : List (String × FieldDef))
    (h : makeField required ft f al mf = .ok mf') :
    mf' = dictSet mf f (.required ft) := by
  unfold makeField at h
  cases hin : pyIn f required with
  | error e => rw [hin] at h; simp at h
  | ok b =>
      rw [hin] at h
      cases b with
      | true => simp at h; exact h.symm
      | false => simp at h

theorem makeField_arr_req (reqs : List Json) (ft : FieldType) (f : String)
    (al : Option Json) (mf : List (String × FieldDef))
    (h : (reqs.any fun x => x == Json.str f) = true) :
    makeField (.arr reqs) ft f al mf =
      .ok (dictSet mf f (.required ft)) := by
  have hpy : pyIn f (Json.arr reqs) =
      .ok (reqs.any fun x => x == Json.str f) := rfl
  unfold makeField
  rw [hpy, h]
  simp

theorem makeNested_ok_shape
    (recurse : Json → Except PyErr (List (String × FieldDef)))
    (defsJ required modelName : Json) (f : String)
    (mf mf' : List (String × FieldDef))
    (h : makeNested recurse defsJ required modelName f mf = .ok mf') :
    ∃ nm lf,
      makeField required (.model nm lf) f (some (.str f)) mf = .ok mf' := by
  unfold makeNested at h
  cases h1 : asObjDict defsJ with
  | error e => rw [h1] at h; simp at h
  | ok defKvs =>
      rw [h1] at h; simp only [exc_bind_ok] at h
      cases h2 : pyDictGetJ defKvs modelName with
      | error e => rw [h2] at h; simp at h
      | ok defnOpt =>
          rw [h2] at h; simp only [exc_bind_ok] at h
          cases h3 : defnToKvs defnOpt with
          | error e => rw [h3] at h; simp at h
          | ok defnKvs =>
              rw [h3] at h; simp only [exc_bind_ok] at h
              cases h4 : recurse
                  (Json.obj (pyDictMerge [("$defs", defsJ)] defnKvs)) with
              | error e => rw [h4] at h; simp at h
              | ok lf =>
                  rw [h4] at h; simp only [exc_bind_ok] at h
                  cases h5 : createModel
                      (lookupJ (pyDictMerge [("$defs", defsJ)] defnKvs)
                        "title") lf with
                  | error e => rw [h5] at h; simp at h
                  | ok m =>
                      rw [h5] at h; simp only [exc_bind_ok] at h
                      cases h6 : modelNameStr modelName with
                      | error e => rw [h6] at h; simp at h
                      | ok nm =>
                          rw [h6] at h; simp only [exc_bind_ok] at h
                          exact ⟨nm, lf, h⟩

theorem processField_ok_shape
    (recurse : Json → Except PyErr (List (String × FieldDef)))
    (rt : String) (defsJ required : Json)
    (allProps : List (String × Json)) (mf mf' : List (String × FieldDef))
    (f : String) (spec : Json)
    (h : processField recurse rt defsJ required allProps mf f spec = .ok mf') :
    ∃ ft al mfMid,
      (al = some (.str f) ∨ al = lookupJ allProps "title") ∧
      (mfMid = mf ∨
        ∃ nm lf,
          makeField required (.model nm lf) f (some (.str f)) mf =
            .ok mfMid) ∧
      makeField required ft f al mfMid = .ok mf' := by
  unfold processField at h
  cases h1 : pyIn "$ref" spec with
  | error e => rw [h1] at h; simp at h
  | ok hasRef =>
      rw [h1] at h; simp only [exc_bind_ok] at h
      cases hasRef with
      | true =>
          simp only [if_pos rfl] at h
          cases h2 : objGet spec "$ref" with
          | error e => rw [h2] at h; simp at h
          | ok mnOpt =>
              rw [h2] at h; simp only [exc_bind_ok] at h
              cases h3 : refName mnOpt with
              | error e => rw [h3] at h; simp at h
              | ok mn =>
                  rw [h3] at h; simp only [exc_bind_ok] at h
                  obtain ⟨nm, lf, hmk⟩ := makeNested_ok_shape _ _ _ _ _ _ _ h
                  exact ⟨.model nm lf, some (.str f), mf, Or.inl rfl,
                    Or.inl rfl, hmk⟩
      | false =>
          simp only [Bool.false_eq_true, if_false] at h
          cases h2 : objGet spec "type" with
          | error e => rw [h2] at h; simp at h
          | ok tOpt =>
              rw [h2] at h; simp only [exc_bind_ok] at h
              cases h3 : typesGet tOpt with
              | error e => rw [h3] at h; simp at h
              | ok factory =>
                  rw [h3] at h; simp only [exc_bind_ok] at h
                  by_cases hl : factory = some PyType.list
                  · simp only [if_pos hl] at h
                    cases h4 : objGet spec "items" with
                    | error e => rw [h4] at h; simp at h
                    | ok itemsOpt =>
                        rw [h4] at h; simp only [exc_bind_ok] at h
                        cases h5 : pyIn rt (itemsOpt.getD .null) with
                        | error e => rw [h5] at h; simp at h
                        | ok hit =>
                            rw [h5] at h; simp only [exc_bind_ok] at h
                            cases hit with
                            | true =>
                                simp only [if_pos rfl] at h
                                cases h6 : objGet (itemsOpt.getD .null) rt with
                                | error e => rw [h6] at h; simp at h
                                | ok v =>
                                    rw [h6] at h
                                    simp only [exc_bind_ok] at h
                                    cases h7 : makeNested recurse defsJ
                                        required (v.getD .null) f mf with
                                    | error e => rw [h7] at h; simp at h
                                    | ok mfMid =>
                                        rw [h7] at h
                                        simp only [exc_bind_ok] at h
                                        obtain ⟨nm, lf, hmk⟩ :=
                                          makeNested_ok_shape _ _ _ _ _ _ _ h7
                                        exact ⟨ftOfFactory factory,
                                          lookupJ allProps "title", mfMid,
                                          Or.inr rfl,
                                          Or.inr ⟨nm, lf, hmk⟩, h⟩
                            | false =>
                                simp only [Bool.false_eq_true, if_false,
                                  exc_pure_eq_ok, exc_bind_ok] at h
                                exact ⟨ftOfFactory factory,
                                  lookupJ allProps "title", mf, Or.inr rfl,
                                  Or.inl rfl, h⟩
                  · simp only [if_neg hl, exc_pure_eq_ok, exc_bind_ok] at h
                    exact ⟨ftOfFactory factory, lookupJ allProps "title", mf,
                      Or.inr rfl, Or.inl rfl, h⟩

theorem createModel_ok_fields (nm : Option Json)
    (flds : List (String × FieldDef)) (m : Model)
    (h : createModel nm flds = .ok m) : m.fields = flds := by
  unfold createModel at h
  match nm with
  | some (.str s) =>
      simp at h
      rw [← h]
  | some (.num _) | some (.boolVal _) | some .null | some (.arr _)
  | some (.obj _) | none => simp at h

/-- `dynMakeFields` at positive fuel on a schema with a `required` list
and a dict of properties is the `make` loop. -/
theorem dynMakeFields_succ (fuel : Nat) (rt : String)
    (kvs pkvs : List (String × Json)) (reqs : List Json)
    (hprops : lookupJ kvs "properties" = some (.obj pkvs))
    (hreq : lookupJ kvs "required" = some (.arr reqs)) :
    dynMakeFields (fuel + 1) rt (.obj kvs) =
      makeLoop (dynMakeFields fuel rt) rt
        ((lookupJ kvs "$defs").getD (.obj [])) (.arr reqs) pkvs pkvs [] := by
  unfold dynMakeFields
  dsimp only
  rw [hreq, hprops]
  rfl

theorem typesGet_prim (t : String)
    (h : (t == "string" || t == "boolean" || t == "integer" ||
      t == "float" || t == "number") = true) :
    ∃ p, typesGet (some (.str t)) = .ok (some p) ∧ p ≠ PyType.list := by
  simp only [Bool.or_eq_true, beq_iff_eq] at h
  rcases h with ((((rfl | rfl) | rfl) | rfl) | rfl) <;>
    exact ⟨_, rfl, by decide⟩

/-- For a primitive property spec whose name appears in the list-valued
`required`, the loop body is exactly one `model_fields` write at the
property's own name. -/
theorem processField_prim
    (recurse : Json → Except PyErr (List (String × FieldDef)))
    (rt : String) (defsJ : Json) (reqs : List Json)
    (allProps : List (String × Json)) (mf : List (String × FieldDef))
    (f : String) (spec : Json) (hp : isPrimitiveSpec spec = true)
    (hreq : (reqs.any fun x => x == Json.str f) = true) :
    ∃ fd, processField recurse rt defsJ (.arr reqs) allProps mf f spec =
      .ok (dictSet mf f fd) := by
  match spec with
  | .str _ | .num _ | .boolVal _ | .null | .arr _ =>
      simp [isPrimitiveSpec] at hp
  | .obj skvs =>
      simp only [isPrimitiveSpec, Bool.and_eq_true, Bool.not_eq_true'] at hp
      obtain ⟨hnoref, hty⟩ := hp
      cases hl : lookupJ skvs "type" with
      | none => rw [hl] at hty; simp at hty
      | some v =>
          cases v with
          | num _ | boolVal _ | null | arr _ | obj _ =>
              rw [hl] at hty; simp at hty
          | str t =>
              rw [hl] at hty
              obtain ⟨p, htg, hpl⟩ := typesGet_prim t hty
              have href : pyIn "$ref" (Json.obj skvs) = .ok false := by
                simp [pyIn, hnoref]
              have hog : objGet (Json.obj skvs) "type" =
                  .ok (lookupJ skvs "type") := rfl
              unfold processField
              rw [href]
              simp only [exc_bind_ok, Bool.false_eq_true, if_false]
              rw [hog, hl]
              simp only [exc_bind_ok]
              rw [htg]
              simp only [exc_bind_ok]
              rw [if_neg (fun hh : some p = some PyType.list =>
                hpl (by injection hh))]
              simp only [exc_pure_eq_ok, exc_bind_ok]
              rw [makeField_arr_req _ _ _ _ _ hreq]
              exact ⟨_, rfl⟩

/-- Running the loop over primitive properties with unique names appends
one field per property, in declaration order. -/
theorem makeLoop_prim_shape
    (recurse : Json → Except PyErr (List (String × FieldDef)))
    (rt : String) (defsJ : Json) (reqs : List Json)
    (allProps : List (String × Json)) (props : List (String × Json))
    (acc : List (String × FieldDef))
    (hall : ∀ p ∈ props, isPrimitiveSpec p.2 = true)
    (hallreq : ∀ p ∈ props, (reqs.any fun x => x == Json.str p.1) = true)
    (hdisj : ∀ p ∈ props, ∀ q ∈ acc, q.1 ≠ p.1)
    (hnodup : (props.map Prod.fst).Nodup) :
    ∃ entries,
      makeLoop recurse rt defsJ (.arr reqs) allProps props acc =
        .ok (acc ++ entries) ∧
      entries.map Prod.fst = props.map Prod.fst := by
  induction props generalizing acc with
  | nil => exact ⟨[], by unfold makeLoop; simp, rfl⟩
  | cons hd tl ih =>
      obtain ⟨f, spec⟩ := hd
      obtain ⟨fd, hpf⟩ := processField_prim recurse rt defsJ reqs allProps acc
        f spec (hall (f, spec) (by simp)) (hallreq (f, spec) (by simp))
      have hset : dictSet acc f fd = acc ++ [(f, fd)] :=
        dictSet_eq_append _ _ _
          (fun q hq => hdisj (f, spec) (by simp) q hq)
      have hnotin : f ∉ tl.map Prod.fst := by
        simpa using (List.nodup_cons.mp hnodup).1
      have hdisj' : ∀ p ∈ tl, ∀ q ∈ acc ++ [(f, fd)], q.1 ≠ p.1 := by
        intro p hp q hq
        rcases List.mem_append.mp hq with hq | hq
        · exact hdisj p (by simp [hp]) q hq
        · have hqe : q = (f, fd) := by simpa using hq
          subst hqe
          intro hh
          apply hnotin
          have hf : f = p.1 := hh
          rw [hf]
          exact List.mem_map_of_mem _ hp
      obtain ⟨entries, hloop, hmap⟩ := ih (acc ++ [(f, fd)])
        (fun p hp => hall p (by simp [hp]))
        (fun p hp => hallreq p (by simp [hp])) hdisj'
        (List.nodup_cons.mp hnodup).2
      refine ⟨(f, fd) :: entries, ?_, by simp [hmap]⟩
      unfold makeLoop
      rw [hpf]
      simp only [exc_bind_ok]
      rw [hset, hloop]
      simp

theorem makeField_requiredFalse (ft : FieldType) (f : String)
    (al : Option Json) (mf : List (String × FieldDef)) :
    makeField (.boolVal false) ft f al mf = .error .typeErrorNotIterable := rfl

theorem makeNested_requiredFalse
    (recurse : Json → Except PyErr (List (String × FieldDef)))
    (defsJ mn : Json) (f : String) (mf : List (String × FieldDef)) :
    ∃ e, makeNested recurse defsJ (.boolVal false) mn f mf = .error e := by
  unfold makeNested
  cases h1 : asObjDict defsJ with
  | error e => exact ⟨e, by simp⟩
  | ok dk =>
      simp only [exc_bind_ok]
      cases h2 : pyDictGetJ dk mn with
      | error e => exact ⟨e, by simp⟩
      | ok dopt =>
          simp only [exc_bind_ok]
          cases h3 : defnToKvs dopt with
          | error e => exact ⟨e, by simp⟩
          | ok dkvs =>
              simp only [exc_bind_ok]
              cases h4 : recurse
                  (Json.obj (pyDictMerge [("$defs", defsJ)] dkvs)) with
              | error e => exact ⟨e, by simp⟩
              | ok lf =>
                  simp only [exc_bind_ok]
                  cases h5 : createModel
                      (lookupJ (pyDictMerge [("$defs", defsJ)] dkvs) "title")
                      lf with
                  | error e => exact ⟨e, by simp⟩
                  | ok m =>
                      simp only [exc_bind_ok]
                      cases h6 : modelNameStr mn with
                      | error e => exact ⟨e, by simp⟩
                      | ok nm =>
                          simp only [exc_bind_ok]
                          exact ⟨.typeErrorNotIterable,
                            makeField_requiredFalse _ _ _ _⟩

/-- With the stored default `required = False`, processing any property
raises: every control path either fails earlier or reaches the
`field_name in self.required` membership test on a bool. -/
theorem processField_requiredFalse
    (recurse : Json → Except PyErr (List (String × FieldDef)))
    (rt : String) (defsJ : Json) (allProps : List (String × Json))
    (mf : List (String × FieldDef)) (f : String) (spec : Json) :
    ∃ e,
      processField recurse rt defsJ (.boolVal false) allProps mf f spec =
        .error e := by
  unfold processField
  cases h1 : pyIn "$ref" spec with
  | error e => exact ⟨e, by simp⟩
  | ok b =>
      simp only [exc_bind_ok]
      cases b with
      | true =>
          simp only [if_pos rfl]
          cases h2 : objGet spec "$ref" with
          | error e => exact ⟨e, by simp⟩
          | ok mnOpt =>
              simp only [exc_bind_ok]
              cases h3 : refName mnOpt with
              | error e => exact ⟨e, by simp⟩
              | ok mn =>
                  simp only [exc_bind_ok]
                  exact makeNested_requiredFalse _ _ _ _ _
      | false =>
          simp only [Bool.false_eq_true, if_false]
          cases h2 : objGet spec "type" with
          | error e => exact ⟨e, by simp⟩
          | ok tOpt =>
              simp only [exc_bind_ok]
              cases h3 : typesGet tOpt with
              | error e => exact ⟨e, by simp⟩
              | ok factory =>
                  simp only [exc_bind_ok]
                  by_cases hl : factory = some PyType.list
                  · rw [if_pos hl]
                    cases h4 : objGet spec "items" with
                    | error e => exact ⟨e, by simp⟩
                    | ok itemsOpt =>
                        simp only [exc_bind_ok]
                        cases h5 : pyIn rt (itemsOpt.getD .null) with
                        | error e => exact ⟨e, by simp⟩
                        | ok hit =>
                            simp only [exc_bind_ok]
                            cases hit with
                            | true =>
                                simp only [if_pos rfl]
                                cases h6 : objGet (itemsOpt.getD .null) rt with
                                | error e => exact ⟨e, by simp⟩
                                | ok v =>
                                    simp only [exc_bind_ok]
                                    obtain ⟨e, hn⟩ := makeNested_requiredFalse
                                      recurse defsJ (v.getD .null) f mf
                                    rw [hn]
                                    exact ⟨e, by simp⟩
                            | false =>
                                simp only [Bool.false_eq_true, if_false,
                                  exc_pure_eq_ok, exc_bind_ok]
                                exact ⟨.typeErrorNotIterable,
                                  makeField_requiredFalse _ _ _ _⟩
                  · rw [if_neg hl]
                    simp only [exc_pure_eq_ok, exc_bind_ok]
                    exact ⟨.typeErrorNotIterable,
                      makeField_requiredFalse _ _ _ _⟩

theorem makeLoop_requiredFalse
    (recurse : Json → Except PyErr (List (String × FieldDef)))
    (rt : String) (defsJ : Json) (allProps : List (String × Json))
    (f : String) (spec : Json) (rest : List (String × Json))
    (mf : List (String × FieldDef)) :
    ∃ e,
      makeLoop recurse rt defsJ (.boolVal false) allProps
        ((f, spec) :: rest) mf = .error e := by
  obtain ⟨e, hp⟩ :=
    processField_requiredFalse recurse rt defsJ allProps mf f spec
  exact ⟨e, by unfold makeLoop; rw [hp]; simp⟩

/-- `dynMakeFields` at positive fuel on a schema with a dict of
properties, with the `required` read left un-normalized. -/
theorem dynMakeFields_succ_general (fuel : Nat) (rt : String)
    (kvs pkvs : List (String × Json))
    (hprops : lookupJ kvs "properties" = some (.obj pkvs)) :
    dynMakeFields (fuel + 1) rt (.obj kvs) =
      makeLoop (dynMakeFields fuel rt) rt
        ((lookupJ kvs "$defs").getD (.obj []))
        ((lookupJ kvs "required").getD (.boolVal false)) pkvs pkvs [] := by
  unfold dynMakeFields
  dsimp only
  rw [hprops]

theorem dynMake_error_of_fields (fuel : Nat) (rt : String) (s : Json)
    (e : PyErr) (h : dynMakeFields fuel rt s = .error e) :
    dynMake fuel rt s = .error e := by
  unfold dynMake
  rw [h]
  rfl

theorem lookupJ_some_any (kvs : List (String × Json)) (k : String)
    (v : Json) (h : lookupJ kvs k = some v) :
    (kvs.any fun kv => kv.1 == k) = true := by
  induction kvs with
  | nil => simp [lookupJ] at h
  | cons hd tl ih =>
      obtain ⟨k', v'⟩ := hd
      by_cases hk : k' = k
      · simp [hk]
      · simp only [lookupJ, if_neg hk] at h
        simp [ih h]

/-- Processing a `$ref` property whose stripped name is absent from the
definitions table fails with the `dict | None` TypeError, whatever the
accumulated `model_fields`. -/
theorem processField_refMissing
    (recurse : Json → Except PyErr (List (String × FieldDef)))
    (rt : String) (dkvs : List (String × Json)) (required : Json)
    (allProps : List (String × Json)) (mf : List (String × FieldDef))
    (f : String) (skvs : List (String × Json)) (ptr : String)
    (href : lookupJ skvs "$ref" = some (.str ptr))
    (hmiss : lookupJ dkvs (stripChars ptr rt) = none) :
    processField recurse rt (.obj dkvs) required allProps mf f (.obj skvs) =
      .error .typeErrorMerge := by
  have h1 : pyIn "$ref" (Json.obj skvs) = .ok true := by
    simp [pyIn, lookupJ_some_any skvs "$ref" _ href]
  have h2 : objGet (Json.obj skvs) "$ref" = .ok (some (.str ptr)) := by
    simp [objGet, href]
  unfold processField
  rw [h1]
  simp only [exc_bind_ok, if_pos rfl]
  rw [h2]
  simp only [exc_bind_ok]
  rw [show refName (some (.str ptr)) = .ok ptr from rfl]
  simp only [exc_bind_ok]
  unfold makeNested
  rw [show asObjDict (Json.obj dkvs) = .ok dkvs from rfl]
  simp only [exc_bind_ok]
  rw [show pyDictGetJ dkvs (.str (stripChars ptr rt)) =
    .ok (lookupJ dkvs (stripChars ptr rt)) from rfl, hmiss]
  simp only [exc_bind_ok]
  rfl

/-- If some property always fails, the whole loop fails. -/
theorem makeLoop_mem_error
    (recurse : Json → Except PyErr (List (String × FieldDef)))
    (rt : String) (defsJ required : Json) (allProps : List (String × Json))
    (props : List (String × Json)) (mf : List (String × FieldDef))
    (f : String) (spec : Json) (hmem : (f, spec) ∈ props)
    (herr : ∀ mf0, ∃ e0,
      processField recurse rt defsJ required allProps mf0 f spec =
        .error e0) :
    ∃ e, makeLoop recurse rt defsJ required allProps props mf = .error e := by
  induction props generalizing mf with
  | nil => simp at hmem
  | cons hd tl ih =>
      obtain ⟨g, gspec⟩ := hd
      unfold makeLoop
      cases hp : processField recurse rt defsJ required allProps mf g gspec with
      | error e => exact ⟨e, by simp⟩
      | ok mf1 =>
          simp only [exc_bind_ok]
          rcases List.mem_cons.mp hmem with heq | htl
          · obtain ⟨e0, hcontra⟩ := herr mf
            rw [show f = g from congrArg Prod.fst heq,
              show spec = gspec from congrArg Prod.snd heq] at hcontra
            rw [hcontra] at hp
            simp at hp
          · exact ih mf1 htl

/-- Anything `_make_field` stores successfully is a required entry: the
optional branch never completes (`NameError` on the unbound `Optional`). -/
theorem makeField_required_inv (required : Json) (ft : FieldType)
    (f : String) (al : Option Json) (mf mf' : List (String × FieldDef))
    (h : makeField required ft f al mf = .ok mf')
    (hinv : ∀ p ∈ mf, ∃ ft0, p.2 = FieldDef.required ft0) :
    ∀ p ∈ mf', ∃ ft0, p.2 = FieldDef.required ft0 := by
  intro p hp
  have h1 := makeField_ok_required _ _ _ _ _ _ h
  subst h1
  rcases mem_dictSet _ _ _ _ hp with hm | hm
  · exact hinv p hm
  · exact ⟨ft, by rw [hm]⟩

theorem processField_required_inv
    (recurse : Json → Except PyErr (List (String × FieldDef)))
    (rt : String) (defsJ required : Json) (allProps : List (String × Json))
    (mf mf' : List (String × FieldDef)) (f : String) (spec : Json)
    (h : processField recurse rt defsJ required allProps mf f spec = .ok mf')
    (hinv : ∀ p ∈ mf, ∃ ft0, p.2 = FieldDef.required ft0) :
    ∀ p ∈ mf', ∃ ft0, p.2 = FieldDef.required ft0 := by
  obtain ⟨ft, al, mfMid, _, hmid, hmk⟩ :=
    processField_ok_shape _ _ _ _ _ _ _ _ _ h
  have hmidinv : ∀ p ∈ mfMid, ∃ ft0, p.2 = FieldDef.required ft0 := by
    rcases hmid with rfl | ⟨nm, lf, hmk2⟩
    · exact hinv
    · exact makeField_required_inv _ _ _ _ _ _ hmk2 hinv
  exact makeField_required_inv _ _ _ _ _ _ hmk hmidinv

theorem makeLoop_required_inv
    (recurse : Json → Except PyErr (List (String × FieldDef)))
    (rt : String) (defsJ required : Json) (allProps : List (String × Json))
    (props : List (String × Json)) (mf mf' : List (String × FieldDef))
    (h : makeLoop recurse rt defsJ required allProps props mf = .ok mf')
    (hinv : ∀ p ∈ mf, ∃ ft0, p.2 = FieldDef.required ft0) :
    ∀ p ∈ mf', ∃ ft0, p.2 = FieldDef.required ft0 := by
  induction props generalizing mf with
  | nil =>
      unfold makeLoop at h
      simp at h
      rw [← h]
      exact hinv
  | cons hd tl ih =>
      obtain ⟨g, gspec⟩ := hd
      unfold makeLoop at h
      cases hp : processField recurse rt defsJ required allProps mf g gspec with
      | error e => rw [hp] at h; simp at h
      | ok mf1 =>
          rw [hp] at h; simp only [exc_bind_ok] at h
          exact ih mf1 h
            (processField_required_inv _ _ _ _ _ _ _ _ _ hp hinv)

theorem lookupJ_dictSetJ_self (d : List (String × Json)) (k : String)
    (v : Json) : lookupJ (dictSetJ d k v) k = some v := by
  induction d with
  | nil => simp [dictSetJ, lookupJ]
  | cons hd tl ih =>
      obtain ⟨k', v'⟩ := hd
      by_cases h : k' = k
      · simp [dictSetJ, h, lookupJ]
      · simp [dictSetJ, h, lookupJ, ih]

theorem lookupJ_dictSetJ_ne (d : List (String × Json)) (k g : String)
    (v : Json) (h : g ≠ k) :
    lookupJ (dictSetJ d k v) g = lookupJ d g := by
  have hkg : ¬k = g := fun hh => h hh.symm
  induction d with
  | nil => simp only [dictSetJ, lookupJ, if_neg hkg]
  | cons hd tl ih =>
      obtain ⟨k', v'⟩ := hd
      by_cases hk : k' = k
      · subst hk
        simp only [dictSetJ, if_pos rfl, lookupJ, if_neg hkg]
      · simp only [dictSetJ, if_neg hk, lookupJ]
        by_cases hg : k' = g
        · simp [hg]
        · simp [hg, ih]

theorem lookupJ_dictSetJ_isSome (d : List (String × Json)) (k g : String)
    (v : Json) (h : (lookupJ d k).isSome) :
    (lookupJ (dictSetJ d g v) k).isSome := by
  by_cases hk : k = g
  · subst hk; rw [lookupJ_dictSetJ_self]; rfl
  · rw [lookupJ_dictSetJ_ne _ _ _ _ hk]; exact h

theorem lookupJ_foldl_dictSetJ_isSome (l : List (String × Json))
    (d : List (String × Json)) (k : String) (h : (lookupJ d k).isSome) :
    (lookupJ (l.foldl (fun acc kv => dictSetJ acc kv.1 kv.2) d) k).isSome := by
  induction l generalizing d with
  | nil => exact h
  | cons hd tl ih =>
      simp only [List.foldl_cons]
      exact ih _ (lookupJ_dictSetJ_isSome _ _ _ _ h)

/-- Every key walked by `process_dict`'s loop is appended to the
`required` list, in order. -/
theorem process_dictGo_required (pending : List (String × Json))
    (props : List (String × Json)) (req : List String)
    (defs : List (String × Json)) :
    (process_dictGo pending props req defs).2.1 =
      req ++ pending.map Prod.fst := by
  induction pending generalizing props req defs with
  | nil => simp [process_dictGo]
  | cons hd tl ih =>
      obtain ⟨k, v⟩ := hd
      simp only [process_dictGo, List.map_cons]
      rw [ih]
      simp

/-- A definition key already present in `defs` survives the rest of the
walk (`dict.update` never removes keys). -/
theorem process_dictGo_defs_pres (pending : List (String × Json))
    (props : List (String × Json)) (req : List String)
    (defs : List (String × Json)) (k : String)
    (h : (lookupJ defs k).isSome) :
    (lookupJ (process_dictGo pending props req defs).2.2 k).isSome := by
  induction pending generalizing props req defs with
  | nil => exact h
  | cons hd tl ih =>
      obtain ⟨g, v⟩ := hd
      simp only [process_dictGo]
      apply ih
      apply lookupJ_foldl_dictSetJ_isSome
      cases (process_value g v).2.1 with
      | none => exact h
      | some dd => exact lookupJ_foldl_dictSetJ_isSome _ _ _ h

/-- After the walk, a key whose name does not recur later holds exactly
the property spec `process_value` produced for it. -/
theorem process_dictGo_props_pres (pending : List (String × Json))
    (props : List (String × Json)) (req : List String)
    (defs : List (String × Json)) (k : String)
    (hnot : k ∉ pending.map Prod.fst) :
    lookupJ (process_dictGo pending props req defs).1 k =
      lookupJ props k := by
  induction pending generalizing props req defs with
  | nil => rfl
  | cons hd tl ih =>
      obtain ⟨g, v⟩ := hd
      have hkg : k ≠ g := fun hh => hnot (by simp [hh])
      simp only [process_dictGo]
      rw [ih _ _ _ (fun hh => hnot (by simp [hh])),
        lookupJ_dictSetJ_ne _ _ _ _ hkg]

theorem process_dictGo_props_mem (pending : List (String × Json))
    (props : List (String × Json)) (req : List String)
    (defs : List (String × Json)) (k : String) (val : Json)
    (hnodup : (pending.map Prod.fst).Nodup) (hmem : (k, val) ∈ pending) :
    lookupJ (process_dictGo pending props req defs).1 k =
      some (process_value k val).1 := by
  induction pending generalizing props req defs with
  | nil => simp at hmem
  | cons hd tl ih =>
      obtain ⟨g, v⟩ := hd
      rcases List.mem_cons.mp hmem with heq | htl
      · have hkg : k = g := congrArg Prod.fst heq
        have hvv : val = v := congrArg Prod.snd heq
        subst hkg; subst hvv
        simp only [process_dictGo]
        rw [process_dictGo_props_pres _ _ _ _ _
          (by simpa using (List.nodup_cons.mp hnodup).1)]
        exact lookupJ_dictSetJ_self _ _ _
      · simp only [process_dictGo]
        exact ih _ _ _ (List.nodup_cons.mp hnodup).2 htl

/-- A nested-mapping value registers a definition keyed by the
capitalized key. -/
theorem process_dictGo_defs_mem (pending : List (String × Json))
    (props : List (String × Json)) (req : List String)
    (defs : List (String × Json)) (k : String)
    (nkvs : List (String × Json)) (hmem : (k, .obj nkvs) ∈ pending) :
    (lookupJ (process_dictGo pending props req defs).2.2
      (pyCapitalize k)).isSome := by
  induction pending generalizing props req defs with
  | nil => simp at hmem
  | cons hd tl ih =>
      obtain ⟨g, v⟩ := hd
      rcases List.mem_cons.mp hmem with heq | htl
      · have hkg : k = g := congrArg Prod.fst heq
        have hvv : (Json.obj nkvs : Json) = v := congrArg Prod.snd heq
        subst hkg
        rw [← hvv]
        simp only [process_dictGo, process_value]
        apply process_dictGo_defs_pres
        apply lookupJ_foldl_dictSetJ_isSome
        simp only [List.foldl_cons, List.foldl_nil]
        rw [lookupJ_dictSetJ_self]
        rfl
      · simp only [process_dictGo]
        exact ih _ _ _ htl

/-- The store-threaded loop returns the input schema unchanged: every
operation the factory applies to its input is a read. -/
theorem dynMakeFieldsSt_spec (fuel : Nat) (rt : String) (s : Json) :
    dynMakeFieldsSt fuel rt s = (s, dynMakeFields fuel rt s) := by
  cases fuel with
  | zero => rfl
  | succ n =>
      cases s with
      | str v => rfl
      | num v => rfl
      | boolVal v => rfl
      | null => rfl
      | arr v => rfl
      | obj kvs =>
          unfold dynMakeFieldsSt dynMakeFields schemaRead jget
          dsimp only
          cases lookupJ kvs "properties" with
          | none => rfl
          | some v => cases v <;> rfl

theorem dynMakeSt_spec (fuel : Nat) (rt : String) (s : Json) :
    dynMakeSt fuel rt s = (s, dynMake fuel rt s) := by
  unfold dynMakeSt dynMake
  rw [dynMakeFieldsSt_spec]
  dsimp only
  cases dynMakeFields fuel rt s with
  | error e => rfl
  | ok flds => rfl

/-! ## Theorems for the frozen claims -/

/-- **C1** (code bug): a property absent from the `required` list never
compiles to an optional field.  `_make_field`'s else branch evaluates
`Optional[field_type]`, but the module imports only `Annotated` and
`Union` from `typing`, so `make()` raises `NameError` at the first
non-required property instead of producing a field that accepts an absent
payload key. -/
theorem claim_C1_theorem :
    dynMake 1 "#/$defs/" (.obj
      [("title", .str "M"),
       ("properties", .obj [("age", .obj [("type", .str "integer")])]),
       ("required", .arr [])]) =
    .error .nameErrorOptional := rfl

/-- **C6** (counterexample): the spec's own `Person` schema — primitive
`name` and `age`, only `name` required — does not compile to a two-field
descriptor: the optional `age` hits the unbound `Optional` and `make()`
raises `NameError`. -/
theorem claim_C6_counterexample :
    dynMake 1 "#/$defs/" (.obj
      [("title", .str "Person"),
       ("properties", .obj
         [("name", .obj [("type", .str "string")]),
          ("age", .obj [("type", .str "integer")])]),
       ("required", .arr [.str "name"])]) =
    .error .nameErrorOptional := rfl

/-- **C6** (amended, proved): a schema whose properties are all
primitive-typed, carry unique names (as Python dict keys do), and are all
listed in `required` compiles to a model with exactly one field per
declared property, in declaration order.  (A non-required property
instead aborts compilation with `NameError`, see the counterexample.) -/
theorem claim_C6_theorem (fuel : Nat) (rt : String)
    (kvs pkvs : List (String × Json)) (reqs : List Json) (T : String)
    (hprops : lookupJ kvs "properties" = some (.obj pkvs))
    (hreq : lookupJ kvs "required" = some (.arr reqs))
    (htitle : lookupJ kvs "title" = some (.str T))
    (hall : ∀ p ∈ pkvs, isPrimitiveSpec p.2 = true)
    (hallreq : ∀ p ∈ pkvs, (reqs.any fun x => x == Json.str p.1) = true)
    (hnodup : (pkvs.map Prod.fst).Nodup) :
    ∃ flds,
      dynMake (fuel + 1) rt (.obj kvs) = .ok ⟨T, flds⟩ ∧
      flds.map Prod.fst = pkvs.map Prod.fst := by
  obtain ⟨entries, hloop, hmap⟩ :=
    makeLoop_prim_shape (dynMakeFields fuel rt) rt
      ((lookupJ kvs "$defs").getD (.obj [])) reqs pkvs pkvs []
      hall hallreq (by intro p _ q hq; simp at hq) hnodup
  refine ⟨entries, ?_, hmap⟩
  unfold dynMake
  rw [dynMakeFields_succ fuel rt kvs pkvs reqs hprops hreq, hloop]
  simp only [List.nil_append, exc_bind_ok]
  unfold createModel jget
  dsimp only
  rw [htitle]

/-- Witness for C6: the all-required `Person` schema with primitive
`name` and `age` compiles to two fields in declaration order. -/
theorem claim_C6_witness :
    ∃ flds,
      dynMake 1 "#/$defs/" (.obj
        [("title", .str "Person"),
         ("properties", .obj
           [("name", .obj [("type", .str "string")]),
            ("age", .obj [("type", .str "integer")])]),
         ("required", .arr [.str "name", .str "age"])]) =
        .ok ⟨"Person", flds⟩ ∧
      flds.map Prod.fst = ["name", "age"] := by
  have h := claim_C6_theorem 0 "#/$defs/"
    [("title", .str "Person"),
     ("properties", .obj
       [("name", .obj [("type", .str "string")]),
        ("age", .obj [("type", .str "integer")])]),
     ("required", .arr [.str "name", .str "age"])]
    [("name", .obj [("type", .str "string")]),
     ("age", .obj [("type", .str "integer")])]
    [.str "name", .str "age"] "Person" rfl rfl rfl
    (by
      intro p hp
      simp only [List.mem_cons, List.mem_singleton] at hp
      rcases hp with rfl | hp
      · rfl
      · rcases hp with rfl | hp
        · rfl
        · simp at hp)
    (by
      intro p hp
      simp only [List.mem_cons, List.mem_singleton] at hp
      rcases hp with rfl | hp
      · rfl
      · rcases hp with rfl | hp
        · rfl
        · simp at hp)
    (by simp)
  simpa using h

/-- **C2** (amended, proved): a schema containing a `$ref` property whose
stripped definition name is absent from the `$defs` table never compiles
to a model: `make()` raises an error (concretely the `dict | None`
TypeError when that property is reached first). -/
theorem claim_C2_theorem (fuel : Nat) (rt : String)
    (kvs pkvs dkvs skvs : List (String × Json)) (f ptr : String)
    (hprops : lookupJ kvs "properties" = some (.obj pkvs))
    (hdefs : lookupJ kvs "$defs" = some (.obj dkvs))
    (hmem : (f, .obj skvs) ∈ pkvs)
    (href : lookupJ skvs "$ref" = some (.str ptr))
    (hmiss : lookupJ dkvs (stripChars ptr rt) = none) :
    ∃ e, dynMake fuel rt (.obj kvs) = .error e := by
  cases fuel with
  | zero => exact ⟨.recursionError, by unfold dynMake dynMakeFields; rfl⟩
  | succ n =>
      obtain ⟨e, hl⟩ := makeLoop_mem_error (dynMakeFields n rt) rt
        (.obj dkvs) ((lookupJ kvs "required").getD (.boolVal false)) pkvs
        pkvs [] f (.obj skvs) hmem
        (fun mf0 => ⟨.typeErrorMerge,
          processField_refMissing _ _ _ _ _ _ _ _ _ href hmiss⟩)
      refine ⟨e, dynMake_error_of_fields _ _ _ _ ?_⟩
      rw [dynMakeFields_succ_general n rt kvs pkvs hprops, hdefs]
      exact hl

/-- Witness for C2 at a concrete schema referencing a missing `Missing`
definition. -/
theorem claim_C2_witness :
    ∃ e,
      dynMake 1 "#/$defs/" (.obj
        [("title", .str "P"),
         ("properties", .obj
           [("meta", .obj [("$ref", .str "#/$defs/Missing")])]),
         ("required", .arr [.str "meta"]),
         ("$defs", .obj [])]) = .error e :=
  claim_C2_theorem 1 "#/$defs/"
    [("title", .str "P"),
     ("properties", .obj [("meta", .obj [("$ref", .str "#/$defs/Missing")])]),
     ("required", .arr [.str "meta"]),
     ("$defs", .obj [])]
    [("meta", .obj [("$ref", .str "#/$defs/Missing")])] []
    [("$ref", .str "#/$defs/Missing")] "meta" "#/$defs/Missing"
    rfl rfl (by simp) rfl rfl

/-- **C10** (confirmed): a schema with no `required` key stores the
boolean `False` as its required set, and compiling it with at least one
declared property always fails (the `field_name in required` membership
test hits a non-collection, or an earlier error fires), so such a schema
is never compiled as all-optional. -/
theorem claim_C10_theorem (fuel : Nat) (rt : String)
    (kvs rest : List (String × Json)) (f : String) (spec : Json)
    (hnoreq : lookupJ kvs "required" = none)
    (hprops : lookupJ kvs "properties" = some (.obj ((f, spec) :: rest))) :
    (lookupJ kvs "required").getD (.boolVal false) = .boolVal false ∧
    ∃ e, dynMake fuel rt (.obj kvs) = .error e := by
  refine ⟨by rw [hnoreq]; rfl, ?_⟩
  cases fuel with
  | zero => exact ⟨.recursionError, by unfold dynMake dynMakeFields; rfl⟩
  | succ n =>
      obtain ⟨e, hl⟩ := makeLoop_requiredFalse (dynMakeFields n rt) rt
        ((lookupJ kvs "$defs").getD (.obj [])) ((f, spec) :: rest)
        f spec rest []
      refine ⟨e, dynMake_error_of_fields _ _ _ _ ?_⟩
      rw [dynMakeFields_succ_general n rt kvs ((f, spec) :: rest) hprops,
        hnoreq]
      exact hl

/-- Witness for C10: a one-property schema without a `required` key fails
to compile. -/
theorem claim_C10_witness :
    (lookupJ [("title", Json.str "M"),
      ("properties", Json.obj [("age", .obj [("type", .str "integer")])])]
      "required").getD (.boolVal false) = .boolVal false ∧
    ∃ e,
      dynMake 1 "#/$defs/" (.obj
        [("title", .str "M"),
         ("properties", .obj [("age", .obj [("type", .str "integer")])])]) =
      .error e :=
  claim_C10_theorem 1 "#/$defs/"
    [("title", .str "M"),
     ("properties", .obj [("age", .obj [("type", .str "integer")])])]
    [] "age" (.obj [("type", .str "integer")]) rfl rfl

/-- **C7** (amended, proved): no compiled field stores an explicit alias.
Every field that compiles at all is required and stored as `(type, ...)`
with no alias (pydantic then addresses it by its field name); a
non-required field is never compiled, because the source's optional
branch raises `NameError` on the unbound `Optional` before storing
anything. -/
theorem claim_C7_theorem (fuel : Nat) (rt : String)
    (kvs pkvs : List (String × Json)) (m : Model)
    (hprops : lookupJ kvs "properties" = some (.obj pkvs))
    (hok : dynMake fuel rt (.obj kvs) = .ok m) :
    ∀ p ∈ m.fields,
      (∃ ft, p.2 = FieldDef.required ft) ∧ storedAlias p.2 = none := by
  unfold dynMake at hok
  cases hf : dynMakeFields fuel rt (.obj kvs) with
  | error e => rw [hf] at hok; simp at hok
  | ok flds =>
      rw [hf] at hok; simp only [exc_bind_ok] at hok
      have hfields : m.fields = flds := createModel_ok_fields _ _ _ hok
      cases fuel with
      | zero => simp [dynMakeFields] at hf
      | succ n =>
          rw [dynMakeFields_succ_general n rt kvs pkvs hprops] at hf
          rw [hfields]
          intro p hp
          obtain ⟨ft, hft⟩ :=
            makeLoop_required_inv _ _ _ _ _ _ _ _ hf (by simp) p hp
          exact ⟨⟨ft, hft⟩, by rw [hft]; rfl⟩

/-- Witness for C7 at an all-required schema with a nested field: the
compiled `meta` field is a required entry storing no alias. -/
theorem claim_C7_witness :
    (∃ ft,
      (FieldDef.required (.model "Meta" [("count", .required (.prim .int))])) =
        FieldDef.required ft) ∧
    storedAlias
      (FieldDef.required (.model "Meta" [("count", .required (.prim .int))])) =
      none :=
  claim_C7_theorem 10 "#/$defs/"
    [("title", .str "P"),
     ("properties", .obj [("meta", .obj [("$ref", .str "#/$defs/Meta")])]),
     ("required", .arr [.str "meta"]),
     ("$defs", .obj [("Meta", .obj
       [("title", .str "Meta"),
        ("properties", .obj [("count", .obj [("type", .str "integer")])]),
        ("required", .arr [.str "count"])])])]
    [("meta", .obj [("$ref", .str "#/$defs/Meta")])]
    (Model.mk "P"
      [("meta", .required (.model "Meta"
          [("count", .required (.prim .int))]))])
    rfl rfl
    ("meta", .required (.model "Meta" [("count", .required (.prim .int))]))
    (by simp)

/-- **C9** (confirmed): compilation is deterministic and side-effect-free.
First conjunct: the result depends only on the values read from the
schema (`title`, `required`, `properties`, `$defs`), so two calls on an
identical schema value — even one with reordered keys — yield equal
results.  Second conjunct: in the store-threaded semantics, where every
schema operation of the source is an explicit read returning the store,
the input schema comes back unchanged and the result agrees with the pure
compiler. -/
theorem claim_C9_theorem :
    (∀ (fuel : Nat) (rt : String) (kvs kvs' : List (String × Json)),
      lookupJ kvs "title" = lookupJ kvs' "title" →
      lookupJ kvs "required" = lookupJ kvs' "required" →
      lookupJ kvs "properties" = lookupJ kvs' "properties" →
      lookupJ kvs "$defs" = lookupJ kvs' "$defs" →
      dynMake fuel rt (.obj kvs) = dynMake fuel rt (.obj kvs')) ∧
    (∀ (fuel : Nat) (rt : String) (s : Json),
      dynMakeSt fuel rt s = (s, dynMake fuel rt s)) := by
  constructor
  · intro fuel rt kvs kvs' h1 h2 h3 h4
    have hf : dynMakeFields fuel rt (.obj kvs) =
        dynMakeFields fuel rt (.obj kvs') := by
      cases fuel with
      | zero => rfl
      | succ n =>
          unfold dynMakeFields
          dsimp only
          rw [h2, h3, h4]
    have ht : jget (Json.obj kvs) "title" = jget (Json.obj kvs') "title" := by
      simp [jget, h1]
    unfold dynMake
    rw [hf, ht]
  · exact dynMakeSt_spec

/-- Witness for C9: a schema and a key-reordered copy compile to the same
result, and the store-threaded run returns the schema unchanged. -/
theorem claim_C9_witness :
    dynMake 1 "#/$defs/" (.obj
      [("title", .str "M"),
       ("properties", .obj [("age", .obj [("type", .str "integer")])]),
       ("required", .arr [])]) =
    dynMake 1 "#/$defs/" (.obj
      [("required", .arr []),
       ("title", .str "M"),
       ("properties", .obj [("age", .obj [("type", .str "integer")])])]) ∧
    dynMakeSt 1 "#/$defs/" (.obj
      [("title", .str "M"),
       ("properties", .obj [("age", .obj [("type", .str "integer")])]),
       ("required", .arr [])]) =
    ((.obj
      [("title", .str "M"),
       ("properties", .obj [("age", .obj [("type", .str "integer")])]),
       ("required", .arr [])]),
     dynMake 1 "#/$defs/" (.obj
      [("title", .str "M"),
       ("properties", .obj [("age", .obj [("type", .str "integer")])]),
       ("required", .arr [])])) :=
  ⟨claim_C9_theorem.1 1 "#/$defs/"
    [("title", .str "M"),
     ("properties", .obj [("age", .obj [("type", .str "integer")])]),
     ("required", .arr [])]
    [("required", .arr []),
     ("title", .str "M"),
     ("properties", .obj [("age", .obj [("type", .str "integer")])])]
    rfl rfl rfl rfl,
   claim_C9_theorem.2 1 "#/$defs/" _⟩

/-- **C3** (code bug): a property declared as an `array` whose `items` is a
`$ref` to a definition that IS present in `$defs` does not compile to a
list of the nested model.  The guard `self.ref_template in items` tests
the prefix against the keys of the items dict (always false for
`{"$ref": ...}` items), and the unconditional `_make_field` on the next
line would overwrite any nested field anyway, so the compiled field is a
plain untyped `list`. -/
theorem claim_C3_theorem :
    dynMake 10 "#/$defs/" (.obj
      [("title", .str "P"),
       ("properties", .obj
         [("addrs", .obj
           [("type", .str "array"),
            ("items", .obj [("$ref", .str "#/$defs/Meta")])])]),
       ("required", .arr [.str "addrs"]),
       ("$defs", .obj [("Meta", .obj
         [("title", .str "Meta"),
          ("properties", .obj [("count", .obj [("type", .str "integer")])]),
          ("required", .arr [.str "count"])])])]) =
    .ok ⟨"P", [("addrs", .required (.prim .list))]⟩ := rfl

/-- **C4** (code bug): reference resolution does not remove exactly the
leading prefix.  `model_name.strip(self.ref_template)` is Python's
character-set strip, so `"#/$defs/Address".strip("#/$defs/")` mangles the
name to `"Addr"`; the intact definition `Address` is never looked up and
compilation of a perfectly well-formed schema dies with the `dict | None`
TypeError. -/
theorem claim_C4_theorem :
    stripChars "#/$defs/Address" "#/$defs/" = "Addr" ∧
    dynMake 10 "#/$defs/" (.obj
      [("title", .str "P"),
       ("properties", .obj
         [("address", .obj [("$ref", .str "#/$defs/Address")])]),
       ("required", .arr [.str "address"]),
       ("$defs", .obj [("Address", .obj
         [("title", .str "Address"),
          ("properties", .obj [("city", .obj [("type", .str "string")])]),
          ("required", .arr [.str "city"])])])]) =
    .error .typeErrorMerge :=
  ⟨rfl, rfl⟩

/-- **C5** (code bug): a property with an unrecognized type name compiles
without any error: `TYPES.get` yields `None` and `_make_field` stores
`(None, ...)` as the field definition, silently forwarding the absent
value kind instead of raising `UnknownPrimitiveTypeError`. -/
theorem claim_C5_theorem :
    dynMake 10 "#/$defs/" (.obj
      [("title", .str "M"),
       ("properties", .obj [("x", .obj [("type", .str "object")])]),
       ("required", .arr [.str "x"])]) =
    .ok ⟨"M", [("x", .required .pyNone)]⟩ := rfl

/-- **C2** (counterexample): on a schema whose only property is a `$ref`
to a missing definition, compilation fails with the `dict | None`
TypeError — not with `UnresolvedReferenceError`, a class the source never
defines. -/
theorem claim_C2_counterexample :
    dynMake 10 "#/$defs/" (.obj
      [("title", .str "P"),
       ("properties", .obj
         [("meta", .obj [("$ref", .str "#/$defs/Missing")])]),
       ("required", .arr [.str "meta"]),
       ("$defs", .obj [])]) =
    .error .typeErrorMerge ∧
    PyErr.typeErrorMerge ≠ PyErr.unresolvedReferenceError :=
  ⟨rfl, by decide⟩

/-- **C7** (counterexample): the compiled field's alias does not equal
the field name.  For the required primitive field `age` the source stores
the bare tuple `(int, ...)` — no alias at all — so the stored alias is
`None`, not `"age"`.  (A non-required field would not disprove this more
gently: it never compiles, raising `NameError` on the unbound
`Optional`.) -/
theorem claim_C7_counterexample :
    dynMake 1 "#/$defs/" (.obj
      [("title", .str "M"),
       ("properties", .obj [("age", .obj [("type", .str "integer")])]),
       ("required", .arr [.str "age"])]) =
    .ok ⟨"M", [("age", .required (.prim .int))]⟩ ∧
    storedAlias (.required (.prim .int)) ≠ some (Json.str "age") :=
  ⟨rfl, by simp [storedAlias]⟩

/-- **C8** (amended, proved): every key walked by the inferrer lands in
the corresponding `required` list in order; every key holding a nested
mapping yields a `$ref` property pointing at `"#/$defs/" + key.capitalize()`
and a definition registered under `key.capitalize()` (capitalized, not
fully title-cased); and the claim's concrete example compiles exactly as
stated, with a `Meta` definition holding one required integer field
`count` and a top-level `meta` property that is a `$ref` to it. -/
theorem claim_C8_theorem :
    (∀ data : List (String × Json),
      (process_dict data).2.1 = data.map Prod.fst) ∧
    (∀ (data : List (String × Json)) (k : String)
        (nkvs : List (String × Json)),
      (data.map Prod.fst).Nodup → (k, Json.obj nkvs) ∈ data →
      lookupJ (process_dict data).1 k =
        some (.obj [("$ref", .str ("#/$defs/" ++ pyCapitalize k))]) ∧
      (lookupJ (process_dict data).2.2 (pyCapitalize k)).isSome) ∧
    create_json_schema_from_parsed
      [("first_name", .str "string"),
       ("meta", .obj [("count", .str "integer")])] "T" =
    Json.obj
      [("$defs", .obj [("Meta", .obj
         [("properties", .obj [("count", .obj
             [("title", .str "Count"), ("type", .str "integer")])]),
          ("required", .arr [.str "count"]),
          ("title", .str "Meta"),
          ("type", .str "object")])]),
       ("properties", .obj
         [("first_name", .obj
            [("title", .str "First Name"), ("type", .str "string")]),
          ("meta", .obj [("$ref", .str "#/$defs/Meta")])]),
       ("required", .arr [.str "first_name", .str "meta"]),
       ("title", .str "T"),
       ("type", .str "object")] := by
  refine ⟨?_, ?_, rfl⟩
  · intro data
    unfold process_dict
    rw [process_dictGo_required]
    simp
  · intro data k nkvs hnodup hmem
    constructor
    · unfold process_dict
      rw [process_dictGo_props_mem _ _ _ _ _ _ hnodup hmem]
      simp [process_value]
    · unfold process_dict
      exact process_dictGo_defs_mem _ _ _ _ _ _ hmem

/-- Witness for C8 at the claim's own sample. -/
theorem claim_C8_witness :
    (process_dict [("first_name", Json.str "string"),
        ("meta", .obj [("count", .str "integer")])]).2.1 =
      ["first_name", "meta"] ∧
    lookupJ (process_dict [("first_name", Json.str "string"),
        ("meta", .obj [("count", .str "integer")])]).1 "meta" =
      some (.obj [("$ref", .str ("#/$defs/" ++ pyCapitalize "meta"))]) ∧
    (lookupJ (process_dict [("first_name", Json.str "string"),
        ("meta", .obj [("count", .str "integer")])]).2.2
      (pyCapitalize "meta")).isSome :=
  have h2 := claim_C8_theorem.2.1
    [("first_name", Json.str "string"),
     ("meta", .obj [("count", .str "integer")])]
    "meta" [("count", .str "integer")] (by simp) (by simp)
  ⟨claim_C8_theorem.1 _, h2.1, h2.2⟩

/-- **C8** (counterexample): the definition emitted for a nested mapping
is named with Python's `str.capitalize`, not with title-casing: the nested
key `year_of_birth` yields a definition named `Year_of_birth`, while the
title-cased key is `Year_Of_Birth`. -/
theorem claim_C8_counterexample :
    ((process_dict
        [("year_of_birth", .obj [("hello", .str "integer")])]).2.2).map
      Prod.fst = ["Year_of_birth"] ∧
    pyTitle "year_of_birth" = "Year_Of_Birth" ∧
    ("Year_of_birth" : String) ≠ "Year_Of_Birth" :=
  ⟨rfl, rfl, by decide⟩

end Dyntamic
